import Mathlib

/-!
Shallow embedding of the Aurora entity-component core, translated from
src/core/Entity.js and src/utils/hasItem.js.  JavaScript objects are
heap-allocated and passed by reference; to express aliasing (needed for the
independence properties of cloning) component payloads live in an explicit
`Store`, and a `Component` carries an index into it.  The Component class
itself (src/core/Component.js) is imported by Entity.js but absent from the
reviewed sources, so its operations are modelled from the contract in
section 4.2 of the spec and are marked as such below.
-/

namespace Aurora

/-- Component data payload: the spec (section 3) describes it as a mapping of
field names to values; values are opaque and modelled as natural numbers. -/
abbrev Data := List (String × Nat)

/-- Tasks are opaque records (spec section 3); modelled as natural numbers. -/
abbrev Task := Nat

/-- The heap of component payload cells.  A reference is an index into
`cells`; allocation appends a cell. -/
structure Store where
  cells : List Data
deriving DecidableEq, Repr

/-- Dereference a payload cell.  Valid references are always in range in the
translated code; out-of-range reads default to the empty payload. -/
def Store.read (s : Store) (r : Nat) : Data := s.cells.getD r []

/-- In-place overwrite of one payload cell, as JavaScript mutation of the
object behind a reference. -/
def Store.write (s : Store) (r : Nat) (d : Data) : Store := ⟨s.cells.set r d⟩

/-- Modelled from the spec: the Component leaf collaborator
(src/core/Component.js, absent from the reviewed sources).  Per section 4.2
it carries a stable string identity `type` and a mutable payload; the
payload lives on the heap, referenced by `dataRef`. -/
structure Component where
  type : String
  dataRef : Nat
deriving DecidableEq, Repr

/-- Modelled from the spec: getType returns the stable identity string. -/
def Component.getType (c : Component) : String := c.type

/-- Modelled from the spec: getData returns the current payload. -/
def Component.getData (c : Component) (s : Store) : Data := s.read c.dataRef

/-- Modelled from the spec: clone produces an independent deep copy with
identical type — a fresh cell is allocated holding a copy of the payload. -/
def Component.clone (c : Component) (s : Store) : Component × Store :=
  (⟨c.type, s.cells.length⟩, ⟨s.cells ++ [s.read c.dataRef]⟩)

/-- Write one field of a payload, overwriting an existing binding for the
key or appending a new one. -/
def setField (d : Data) (k : String) (v : Nat) : Data :=
  if d.any (fun p => p.1 == k) then d.map (fun p => if p.1 == k then (k, v) else p)
  else d ++ [(k, v)]

/-- Modelled from the spec: apply merges a partial data record into the
existing payload, in place (spec section 4.2). -/
def Component.apply (c : Component) (d : Data) (s : Store) : Store :=
  s.write c.dataRef (d.foldl (fun acc p => setField acc p.1 p.2) (s.read c.dataRef))

/-- Modelled from the spec: a component configuration record, consumed by
the Component constructor (spec section 6): a type tag and an initial
payload. -/
structure CompConfig where
  type : String
  data : Data
deriving DecidableEq, Repr

/-- Modelled from the spec: the Component constructor allocates the initial
payload on the heap. -/
def Component.ofConfig (cfg : CompConfig) (s : Store) : Component × Store :=
  (⟨cfg.type, s.cells.length⟩, ⟨s.cells ++ [cfg.data]⟩)

/-- Entity state, translated from the fields of src/core/Entity.js
(`_uuid`, `_type`, `_name`, `_components`, `_tasks`, `tasksDirty`,
`_dirty`); the leading underscores are dropped.  The fresh-construction
branch of the source never assigns `tasksDirty`, leaving it undefined,
which reads as falsy; it is modelled as `false` there. -/
structure Entity where
  uuid : String
  type : String
  name : String
  components : List Component
  tasks : List Task
  tasksDirty : Bool
  dirty : Bool
deriving DecidableEq, Repr

/-- hasComponent (Entity.js line 205): delegates to src/utils/hasItem.js,
which is true exactly when some element of the array has the matching
`_type` property. -/
def Entity.hasComponent (e : Entity) (t : String) : Bool :=
  e.components.any (fun c => c.type == t)

/-- getComponent (Entity.js line 122): delegates to getItem, returning the
first component whose `_type` matches, or null. -/
def Entity.getComponent (e : Entity) (t : String) : Option Component :=
  e.components.find? (fun c => c.type == t)

/-- `_addComponent` (Entity.js line 61): refuses a duplicate type with a
warning and a null return; otherwise pushes the component, sets the dirty
flag and returns the updated component array.  Result: updated entity
paired with the JavaScript return value. -/
def Entity._addComponent (e : Entity) (c : Component) :
    Entity × Option (List Component) :=
  if e.hasComponent c.getType then (e, none)
  else
    let cs := e.components ++ [c]
    ({ e with components := cs, dirty := true }, some cs)

/-- `_removeComponent` (Entity.js line 84): computes
`indexOf(getComponent(type))`; since getComponent returns the first
component whose `_type` matches and indexOf compares by reference, the
index found is the first index whose type matches.  A miss (indexOf gives
-1) warns and returns null; otherwise the component is spliced out and the
dirty flag set. -/
def Entity._removeComponent (e : Entity) (t : String) :
    Entity × Option (List Component) :=
  match e.components.findIdx? (fun c => c.type == t) with
  | none => (e, none)
  | some i =>
    let cs := e.components.eraseIdx i
    ({ e with components := cs, dirty := true }, some cs)

/-- Fresh-construction branch of the Entity constructor (Entity.js lines
41-47 plus the closing `_dirty = false`): the generated UUID comes from the
external UUID() collaborator and is passed in as `uuid`. -/
def Entity.fresh (uuid : String) : Entity :=
  { uuid := uuid, type := "untyped", name := "No Name",
    components := [], tasks := [], tasksDirty := false, dirty := false }

/-- JavaScript `field || dflt` on an optional string field of the
configuration record: an absent field (undefined) and the empty string are
both falsy, so both select the default. -/
def jsOr (v : Option String) (dflt : String) : String :=
  match v with
  | none => dflt
  | some s => if s = "" then dflt else s

/-- The configuration record of the Entity constructor (spec section 6):
every field is optional. -/
structure Config where
  uuid : Option String
  type : Option String
  name : Option String
  components : Option (List CompConfig)
  tasks : Option (List Task)
deriving DecidableEq, Repr

/-- The `config.components.forEach` loop of the constructor (Entity.js
lines 33-35): each entry is passed to the Component constructor and the
result to `_addComponent` (whose return value the loop discards). -/
def addAll (cfgs : List CompConfig) (e : Entity) (s : Store) : Entity × Store :=
  match cfgs with
  | [] => (e, s)
  | cfg :: rest =>
    let r := Component.ofConfig cfg s
    addAll rest (e._addComponent r.1).1 r.2

/-- Config branch of the Entity constructor (Entity.js lines 28-38 plus the
closing `_dirty = false`).  `config.uuid`, `config.type` and `config.name`
default through `||`; `config.components` is dereferenced with `.forEach`
WITHOUT a default, so an absent components field throws a TypeError
(modelled as `none`) and leaves a partially initialised object behind;
`config.tasks` defaults through `|| []`.  `freshUUID` is the value the
UUID() collaborator would generate. -/
def Entity.ofConfig (freshUUID : String) (cfg : Config) (s : Store) :
    Option (Entity × Store) :=
  match cfg.components with
  | none => none
  | some cfgs =>
    let e0 : Entity :=
      { uuid := jsOr cfg.uuid freshUUID, type := jsOr cfg.type "no-type",
        name := jsOr cfg.name "No Name", components := [], tasks := [],
        tasksDirty := false, dirty := false }
    let r := addAll cfgs e0 s
    some ({ r.1 with
            tasks := cfg.tasks.getD []
            tasksDirty := false
            dirty := false }, r.2)

/-- The `source.getComponents().forEach(push(clone))` loop of copy
(Entity.js lines 110-112). -/
def cloneAll (cs : List Component) (s : Store) : List Component × Store :=
  match cs with
  | [] => ([], s)
  | c :: rest =>
    let r := c.clone s
    let r2 := cloneAll rest r.2
    (r.1 :: r2.1, r2.2)

/-- copy (Entity.js line 106): overwrites type and name from the source,
replaces the component array with clones of every source component, and
sets the dirty flag.  The JavaScript method returns `this._components`,
i.e. the components field of the first projection here. -/
def Entity.copy (self source : Entity) (s : Store) : Entity × Store :=
  let r := cloneAll source.components s
  ({ self with
     type := source.type
     name := source.name
     components := r.1
     dirty := true }, r.2)

/-- The dynamic type of the value a method hands back to its caller:
either an Entity object or a component array. -/
inductive JSValue where
  | entity (e : Entity)
  | componentArray (cs : List Component)
deriving DecidableEq, Repr

/-- Whether a returned value is an Entity object. -/
def JSValue.isEntity : JSValue → Bool
  | .entity _ => true
  | .componentArray _ => false

/-- clone (Entity.js line 97): `return new this.constructor().copy(this)`.
The fresh entity is built, copy runs on it, and the value handed to the
caller is the RETURN VALUE OF copy — which is `this._components`, the
component array of the fresh entity, not the entity itself. -/
def Entity.clone (e : Entity) (freshUUID : String) (s : Store) :
    JSValue × Store :=
  let r := (Entity.fresh freshUUID).copy e s
  (JSValue.componentArray r.1.components, r.2)

/-- getComponentList (Entity.js line 129): collects the type of every
component, in order. -/
def Entity.getComponentList (e : Entity) : List String :=
  e.components.map Component.getType

/-- getComponents (Entity.js line 141). -/
def Entity.getComponents (e : Entity) : List Component := e.components

/-- getCurrentTask (Entity.js line 150): `this._tasks[0]`, which is
undefined on an empty queue. -/
def Entity.getCurrentTask (e : Entity) : Option Task := e.tasks.head?

/-- getData (Entity.js line 160): looks the component up by type; a miss
warns and returns null, a hit returns the payload. -/
def Entity.getData (e : Entity) (t : String) (s : Store) : Option Data :=
  match e.getComponent t with
  | none => none
  | some c => some (c.getData s)

/-- getName (Entity.js line 173). -/
def Entity.getName (e : Entity) : String := e.name

/-- getTasks (Entity.js line 181). -/
def Entity.getTasks (e : Entity) : List Task := e.tasks

/-- getType (Entity.js line 189). -/
def Entity.getType (e : Entity) : String := e.type

/-- getUUID (Entity.js line 197). -/
def Entity.getUUID (e : Entity) : String := e.uuid

/-- isDirty (Entity.js line 213). -/
def Entity.isDirty (e : Entity) : Bool := e.dirty

/-- setDirty (Entity.js line 249): sets the flag to the given value and
returns it; the JavaScript parameter defaults to true, and every internal
call site uses that default. -/
def Entity.setDirty (e : Entity) (d : Bool) : Entity × Bool :=
  ({ e with dirty := d }, d)

/-- setComponentData (Entity.js line 233): scans the component array for
the first type match; on a hit applies the partial data to that component
(mutating its payload cell), marks the entity dirty and returns the
component; on a miss warns and returns null with nothing changed. -/
def Entity.setComponentData (e : Entity) (t : String) (d : Data) (s : Store) :
    Entity × Store × Option Component :=
  match e.getComponent t with
  | some c => ({ e with dirty := true }, c.apply d s, some c)
  | none => (e, s, none)

/-- setTasks (Entity.js line 258): wholesale replacement; sets tasksDirty
and the dirty flag. -/
def Entity.setTasks (e : Entity) (ts : List Task) : Entity :=
  { e with tasks := ts, tasksDirty := true, dirty := true }

/-- appendTasks (Entity.js line 270): evaluates
`this._tasks.concat(tasks)` but never assigns the result back, so the
stored task list is unchanged; the only call made is `this.setDirty()`, so
the dirty flag is set but tasksDirty is NOT touched. -/
def Entity.appendTasks (e : Entity) (ts : List Task) : Entity :=
  have _discarded : List Task := e.tasks ++ ts
  { e with dirty := true }

/-- insertTasks (Entity.js line 281): prepends and reassigns the stored
list; sets tasksDirty and the dirty flag. -/
def Entity.insertTasks (e : Entity) (ts : List Task) : Entity :=
  { e with tasks := ts ++ e.tasks, tasksDirty := true, dirty := true }

/-- advanceTasks (Entity.js line 293): `this._tasks.shift()` drops the
front task (a safe no-op on an empty array); sets tasksDirty and the dirty
flag. -/
def Entity.advanceTasks (e : Entity) : Entity :=
  { e with tasks := e.tasks.tail, tasksDirty := true, dirty := true }

/-- Entities reachable through the public lifecycle: constructed fresh or
from a configuration record, then subjected to any sequence of
`_addComponent` and `_removeComponent` operations. -/
inductive Reachable : Entity → Prop where
  | fresh (uuid : String) : Reachable (Entity.fresh uuid)
  | ofConfig (freshUUID : String) (cfg : Config) (s s2 : Store) (e : Entity) :
      Entity.ofConfig freshUUID cfg s = some (e, s2) → Reachable e
  | add (e : Entity) (c : Component) :
      Reachable e → Reachable (e._addComponent c).1
  | remove (e : Entity) (t : String) :
      Reachable e → Reachable (e._removeComponent t).1

/-- All component payload references of an entity are live in the store. -/
def Entity.wf (e : Entity) (s : Store) : Prop :=
  ∀ c ∈ e.components, c.dataRef < s.cells.length

/-- A one-cell store used as a concrete instance in witnesses. -/
def sampleStore : Store := ⟨[[("x", 1)]]⟩

/-- A concrete component referencing cell 0 of `sampleStore`. -/
def posComponent : Component := ⟨"pos", 0⟩

/-- A concrete entity holding `posComponent`. -/
def sampleEntity : Entity := ((Entity.fresh "u")._addComponent posComponent).1

/-- A list with no match under `any` also has no match under `find?`. -/
theorem find?_eq_none_of_any_eq_false {α : Type} (l : List α) (p : α → Bool)
    (h : l.any p = false) : l.find? p = none := by
  rw [List.find?_eq_none]
  intro x hx hp
  have hall : l.any p = true := List.any_eq_true.mpr ⟨x, hx, hp⟩
  rw [h] at hall
  exact Bool.false_ne_true hall

/-- A list with no match under `any` also has no match under `findIdx?`. -/
theorem findIdx?_eq_none_of_any_eq_false {α : Type} (l : List α)
    (p : α → Bool) (h : l.any p = false) : l.findIdx? p = none := by
  rw [List.findIdx?_eq_none_iff]
  intro x hx
  by_contra hp
  simp only [Bool.not_eq_false] at hp
  have hall : l.any p = true := List.any_eq_true.mpr ⟨x, hx, hp⟩
  rw [h] at hall
  exact Bool.false_ne_true hall

/-- A list with a match under `any` has one under `findIdx?`. -/
theorem findIdx?_isSome_of_any_eq_true {α : Type} (l : List α) (p : α → Bool)
    (h : l.any p = true) : (l.findIdx? p).isSome := by
  by_contra hn
  rw [Option.not_isSome_iff_eq_none, List.findIdx?_eq_none_iff] at hn
  obtain ⟨x, hx, hp⟩ := List.any_eq_true.mp h
  rw [hn x hx] at hp
  exact Bool.false_ne_true hp

/-- A list with a match under `any` has one under `find?`. -/
theorem find?_isSome_of_any_eq_true {α : Type} (l : List α) (p : α → Bool)
    (h : l.any p = true) : (l.find? p).isSome := by
  obtain ⟨x, hx, hp⟩ := List.any_eq_true.mp h
  cases hf : l.find? p with
  | some c => rfl
  | none =>
    rw [List.find?_eq_none] at hf
    exact absurd hp (hf x hx)

/-- The constructor component loop touches only the components and dirty
fields of the entity it threads through. -/
theorem addAll_preserves_fields (cfgs : List CompConfig) (e : Entity)
    (s : Store) :
    ((addAll cfgs e s).1).uuid = e.uuid ∧ ((addAll cfgs e s).1).type = e.type ∧
    ((addAll cfgs e s).1).name = e.name ∧
    ((addAll cfgs e s).1).tasks = e.tasks ∧
    ((addAll cfgs e s).1).tasksDirty = e.tasksDirty := by
  induction cfgs generalizing e s with
  | nil => exact ⟨rfl, rfl, rfl, rfl, rfl⟩
  | cons cfg rest ih =>
    have hstep : ∀ c : Component,
        ((e._addComponent c).1).uuid = e.uuid ∧
        ((e._addComponent c).1).type = e.type ∧
        ((e._addComponent c).1).name = e.name ∧
        ((e._addComponent c).1).tasks = e.tasks ∧
        ((e._addComponent c).1).tasksDirty = e.tasksDirty := by
      intro c
      unfold Entity._addComponent
      split
      · exact ⟨rfl, rfl, rfl, rfl, rfl⟩
      · exact ⟨rfl, rfl, rfl, rfl, rfl⟩
    have h1 := hstep (Component.ofConfig cfg s).1
    have h2 := ih ((e._addComponent (Component.ofConfig cfg s).1).1)
      (Component.ofConfig cfg s).2
    unfold addAll
    refine ⟨?_, ?_, ?_, ?_, ?_⟩
    · rw [h2.1, h1.1]
    · rw [h2.2.1, h1.2.1]
    · rw [h2.2.2.1, h1.2.2.1]
    · rw [h2.2.2.2.1, h1.2.2.2.1]
    · rw [h2.2.2.2.2, h1.2.2.2.2]

/-- Claim C1: the spec says clone() produces and yields to the caller a new
Entity of the same concrete kind.  The code instead yields the return value
of copy(), which is the fresh instance component array: for every entity,
every generated UUID and every store, the value clone hands back is a
component array and never an Entity object. -/
theorem C1_clone_never_returns_entity (e : Entity) (freshUUID : String)
    (s : Store) : ((Entity.clone e freshUUID s).1).isEntity = false := rfl

/-- Claim C2: the spec says construction succeeds whenever any optional
field is absent.  In the code the components field alone has no default:
`config.components.forEach` throws a TypeError when it is absent, whatever
the other fields hold (modelled as the `none` outcome of `ofConfig`). -/
theorem C2_constructor_requires_components_field (freshUUID : String)
    (u t n : Option String) (ts : Option (List Task)) (s : Store) :
    Entity.ofConfig freshUUID ⟨u, t, n, none, ts⟩ s = none := rfl

/-- Claim C3 counterexample: the claim says that after appendTasks both
tasksDirty and dirty are true.  On a fresh entity (tasksDirty = false),
appendTasks [0] leaves tasksDirty false, because the source only calls
setDirty() and never touches tasksDirty. -/
theorem C3_counterexample_appendTasks_tasksDirty :
    ¬ (((Entity.fresh "u").appendTasks [0]).tasksDirty = true) := by decide

/-- Claim C3 (amended): appendTasks leaves the stored task sequence
unchanged (the concatenation is computed but never assigned back) and sets
the dirty flag, while tasksDirty keeps its previous value; getTasks returns
the same sequence as before the call. -/
theorem C3_appendTasks_noop_amended (e : Entity) (ts : List Task) :
    (e.appendTasks ts).getTasks = e.getTasks ∧
    (e.appendTasks ts).tasks = e.tasks ∧
    (e.appendTasks ts).dirty = true ∧
    (e.appendTasks ts).tasksDirty = e.tasksDirty :=
  ⟨rfl, rfl, rfl, rfl⟩

/-- Claim C8: the task sequence is FIFO — advanceTasks on [t1, t2, t3]
leaves [t2, t3] and getCurrentTask then returns t2; advanceTasks on an
empty sequence is a safe no-op that leaves the sequence empty. -/
theorem C8_task_fifo :
    (∀ (e : Entity) (t1 t2 t3 : Task), e.getTasks = [t1, t2, t3] →
      (e.advanceTasks).getTasks = [t2, t3] ∧
      (e.advanceTasks).getCurrentTask = some t2) ∧
    (∀ e : Entity, e.getTasks = [] → (e.advanceTasks).getTasks = []) := by
  constructor
  · intro e t1 t2 t3 h
    unfold Entity.getTasks at h
    exact ⟨by simp [Entity.advanceTasks, Entity.getTasks, h],
           by simp [Entity.advanceTasks, Entity.getCurrentTask, h]⟩
  · intro e h
    unfold Entity.getTasks at h
    simp [Entity.advanceTasks, Entity.getTasks, h]

/-- Claim C8 witness: the FIFO behavior at the concrete queue [1, 2, 3]. -/
theorem C8_task_fifo_witness :
    (((Entity.fresh "u").setTasks [1, 2, 3]).advanceTasks).getTasks = [2, 3] ∧
    (((Entity.fresh "u").setTasks [1, 2, 3]).advanceTasks).getCurrentTask
      = some 2 :=
  C8_task_fifo.1 ((Entity.fresh "u").setTasks [1, 2, 3]) 1 2 3 rfl

/-- Claim C9: each failing domain operation — duplicate add, missing
remove, missing data lookup, missing setComponentData — returns the
null sentinel and leaves the entity (components, tasks, dirty flag) and
the store unchanged. -/
theorem C9_failure_sentinels :
    (∀ (e : Entity) (c : Component), e.hasComponent c.getType = true →
      e._addComponent c = (e, none)) ∧
    (∀ (e : Entity) (t : String), e.hasComponent t = false →
      e._removeComponent t = (e, none)) ∧
    (∀ (e : Entity) (t : String) (s : Store), e.hasComponent t = false →
      e.getData t s = none) ∧
    (∀ (e : Entity) (t : String) (d : Data) (s : Store),
      e.hasComponent t = false → e.setComponentData t d s = (e, s, none)) := by
  refine ⟨?_, ?_, ?_, ?_⟩
  · intro e c h
    simp [Entity._addComponent, h]
  · intro e t h
    unfold Entity.hasComponent at h
    unfold Entity._removeComponent
    rw [findIdx?_eq_none_of_any_eq_false _ _ h]
  · intro e t s h
    unfold Entity.hasComponent at h
    unfold Entity.getData Entity.getComponent
    rw [find?_eq_none_of_any_eq_false _ _ h]
  · intro e t d s h
    unfold Entity.hasComponent at h
    unfold Entity.setComponentData Entity.getComponent
    rw [find?_eq_none_of_any_eq_false _ _ h]

/-- Claim C9 witness: the four failure sentinels at a concrete entity that
owns exactly one component of type pos. -/
theorem C9_failure_sentinels_witness :
    sampleEntity._addComponent ⟨"pos", 1⟩ = (sampleEntity, none) ∧
    sampleEntity._removeComponent "hp" = (sampleEntity, none) ∧
    sampleEntity.getData "hp" sampleStore = none ∧
    sampleEntity.setComponentData "hp" [] sampleStore
      = (sampleEntity, sampleStore, none) :=
  ⟨C9_failure_sentinels.1 sampleEntity ⟨"pos", 1⟩ (by decide),
   C9_failure_sentinels.2.1 sampleEntity "hp" (by decide),
   C9_failure_sentinels.2.2.1 sampleEntity "hp" sampleStore (by decide),
   C9_failure_sentinels.2.2.2 sampleEntity "hp" [] sampleStore (by decide)⟩

/-- Claim C10: empty-string (falsy) uuid, type and name fields of the
configuration record behave exactly like absent fields — the whole
construction coincides with the absent-field construction, and a
successful construction yields type no-type, name No Name and the freshly
generated identifier. -/
theorem C10_falsy_fields_default :
    (∀ (freshUUID : String) (cs : Option (List CompConfig))
      (ts : Option (List Task)) (s : Store),
      Entity.ofConfig freshUUID ⟨some "", some "", some "", cs, ts⟩ s
        = Entity.ofConfig freshUUID ⟨none, none, none, cs, ts⟩ s) ∧
    (∀ (freshUUID : String) (cs : List CompConfig) (ts : Option (List Task))
      (s : Store) (e : Entity) (s2 : Store),
      Entity.ofConfig freshUUID ⟨some "", some "", some "", some cs, ts⟩ s
        = some (e, s2) →
      e.getType = "no-type" ∧ e.getName = "No Name" ∧
      e.getUUID = freshUUID) := by
  constructor
  · intro freshUUID cs ts s
    simp [Entity.ofConfig, jsOr]
  · intro freshUUID cs ts s e s2 h
    simp only [Entity.ofConfig, Option.some.injEq, Prod.mk.injEq] at h
    obtain ⟨he, _⟩ := h
    subst he
    have hf := addAll_preserves_fields cs
      { uuid := jsOr (some "") freshUUID, type := jsOr (some "") "no-type",
        name := jsOr (some "") "No Name", components := [], tasks := [],
        tasksDirty := false, dirty := false } s
    refine ⟨?_, ?_, ?_⟩
    · show _ = _
      rw [Entity.getType]
      rw [hf.2.1]
      rfl
    · rw [Entity.getName]
      rw [hf.2.2.1]
      rfl
    · rw [Entity.getUUID]
      rw [hf.1]
      rfl

/-- Claim C10 witness: a concrete construction with empty-string uuid, type
and name fields and an empty component list. -/
theorem C10_falsy_fields_default_witness :
    (((Entity.ofConfig "fresh" ⟨some "", some "", some "", some [], none⟩
        ⟨[]⟩).getD (Entity.fresh "x", ⟨[]⟩)).1).getType = "no-type" ∧
    (((Entity.ofConfig "fresh" ⟨some "", some "", some "", some [], none⟩
        ⟨[]⟩).getD (Entity.fresh "x", ⟨[]⟩)).1).getName = "No Name" ∧
    (((Entity.ofConfig "fresh" ⟨some "", some "", some "", some [], none⟩
        ⟨[]⟩).getD (Entity.fresh "x", ⟨[]⟩)).1).getUUID = "fresh" := by
  have h : Entity.ofConfig "fresh" ⟨some "", some "", some "", some [], none⟩
      ⟨[]⟩
      = some ((((Entity.ofConfig "fresh"
          ⟨some "", some "", some "", some [], none⟩
          ⟨[]⟩).getD (Entity.fresh "x", ⟨[]⟩)).1),
        (((Entity.ofConfig "fresh"
          ⟨some "", some "", some "", some [], none⟩
          ⟨[]⟩).getD (Entity.fresh "x", ⟨[]⟩)).2)) := rfl
  exact C10_falsy_fields_default.2 "fresh" [] none ⟨[]⟩ _ _ h

/-- Claim C7: a freshly constructed entity (either branch) has
dirty = false; every successful structural or data mutation sets
dirty = true while the failing variants leave it untouched; and setDirty
is the only operation yielding dirty = false, namely exactly when it is
passed false. -/
theorem C7_dirty_flag_protocol :
    (∀ uuid : String, (Entity.fresh uuid).isDirty = false) ∧
    (∀ (freshUUID : String) (cfg : Config) (s : Store) (e : Entity)
      (s2 : Store), Entity.ofConfig freshUUID cfg s = some (e, s2) →
      e.isDirty = false) ∧
    (∀ (e : Entity) (c : Component), ((e._addComponent c).1).dirty
      = (if e.hasComponent c.getType then e.dirty else true)) ∧
    (∀ (e : Entity) (t : String), ((e._removeComponent t).1).dirty
      = (if e.hasComponent t then true else e.dirty)) ∧
    (∀ (self source : Entity) (s : Store),
      ((Entity.copy self source s).1).dirty = true) ∧
    (∀ (e : Entity) (t : String) (d : Data) (s : Store),
      ((e.setComponentData t d s).1).dirty
        = (if e.hasComponent t then true else e.dirty)) ∧
    (∀ (e : Entity) (ts : List Task), (e.setTasks ts).dirty = true) ∧
    (∀ (e : Entity) (ts : List Task), (e.appendTasks ts).dirty = true) ∧
    (∀ (e : Entity) (ts : List Task), (e.insertTasks ts).dirty = true) ∧
    (∀ e : Entity, (e.advanceTasks).dirty = true) ∧
    (∀ (e : Entity) (b : Bool), ((e.setDirty b).1).dirty = b) := by
  refine ⟨fun _ => rfl, ?_, ?_, ?_, fun _ _ _ => rfl, ?_, fun _ _ => rfl,
    fun _ _ => rfl, fun _ _ => rfl, fun _ => rfl, fun _ _ => rfl⟩
  · intro freshUUID cfg s e s2 h
    unfold Entity.ofConfig at h
    cases hc : cfg.components with
    | none => rw [hc] at h; exact Option.noConfusion h
    | some cfgs =>
      rw [hc] at h
      simp only [Option.some.injEq, Prod.mk.injEq] at h
      obtain ⟨he, _⟩ := h
      subst he
      rfl
  · intro e c
    unfold Entity._addComponent
    cases hc : e.hasComponent c.getType with
    | true => simp [hc]
    | false => simp [hc]
  · intro e t
    unfold Entity._removeComponent
    cases hc : e.hasComponent t with
    | true =>
      have hs := findIdx?_isSome_of_any_eq_true _ _ hc
      obtain ⟨i, hi⟩ := Option.isSome_iff_exists.mp hs
      rw [hi]
      simp [hc]
    | false =>
      unfold Entity.hasComponent at hc
      rw [findIdx?_eq_none_of_any_eq_false _ _ hc]
      simp [Entity.hasComponent, hc]
  · intro e t d s
    unfold Entity.setComponentData Entity.getComponent
    cases hc : e.hasComponent t with
    | true =>
      have hs := find?_isSome_of_any_eq_true _ _ hc
      obtain ⟨c, hfc⟩ := Option.isSome_iff_exists.mp hs
      rw [hfc]
      simp [hc]
    | false =>
      unfold Entity.hasComponent at hc
      rw [find?_eq_none_of_any_eq_false _ _ hc]
      simp [Entity.hasComponent, hc]

/-- Claim C7 witness: the constructor conjunct at a concrete configuration
record, and the mutation conjuncts at a concrete entity. -/
theorem C7_dirty_flag_protocol_witness :
    (Entity.fresh "u").isDirty = false ∧
    sampleEntity.isDirty = true ∧
    (((Entity.ofConfig "f" ⟨none, none, none, some [⟨"pos", [("x", 1)]⟩],
        none⟩ ⟨[]⟩).getD (Entity.fresh "x", ⟨[]⟩)).1).isDirty = false ∧
    ((sampleEntity._addComponent ⟨"pos", 1⟩).1).dirty
      = (if sampleEntity.hasComponent (Component.getType ⟨"pos", 1⟩)
         then sampleEntity.dirty else true) := by
  refine ⟨C7_dirty_flag_protocol.1 "u", by decide, ?_, ?_⟩
  · have h : Entity.ofConfig "f"
        ⟨none, none, none, some [⟨"pos", [("x", 1)]⟩], none⟩ ⟨[]⟩
        = some ((((Entity.ofConfig "f"
            ⟨none, none, none, some [⟨"pos", [("x", 1)]⟩], none⟩
            ⟨[]⟩).getD (Entity.fresh "x", ⟨[]⟩)).1),
          (((Entity.ofConfig "f"
            ⟨none, none, none, some [⟨"pos", [("x", 1)]⟩], none⟩
            ⟨[]⟩).getD (Entity.fresh "x", ⟨[]⟩)).2)) := rfl
    exact C7_dirty_flag_protocol.2.1 "f"
      ⟨none, none, none, some [⟨"pos", [("x", 1)]⟩], none⟩ ⟨[]⟩ _ _ h
  · exact C7_dirty_flag_protocol.2.2.1 sampleEntity ⟨"pos", 1⟩

/-- Deleting an index can only lose images under a map, never add one. -/
theorem mem_map_of_mem_map_eraseIdx {α β : Type} (f : α → β) (l : List α)
    (i : Nat) (b : β) (h : b ∈ (l.eraseIdx i).map f) : b ∈ l.map f := by
  induction l generalizing i with
  | nil => simp [List.eraseIdx] at h
  | cons x xs ih =>
    cases i with
    | zero =>
      simp only [List.eraseIdx] at h
      simp [h]
    | succ j =>
      simp only [List.eraseIdx, List.map_cons, List.mem_cons] at h
      rcases h with h | h
      · simp [h]
      · simp [ih j h]

/-- Deleting an index preserves distinctness of the mapped values. -/
theorem nodup_map_eraseIdx {α β : Type} (f : α → β) (l : List α) (i : Nat)
    (h : (l.map f).Nodup) : ((l.eraseIdx i).map f).Nodup := by
  induction l generalizing i with
  | nil => simp [List.eraseIdx]
  | cons x xs ih =>
    simp only [List.map_cons, List.nodup_cons] at h
    cases i with
    | zero => simpa [List.eraseIdx] using h.2
    | succ j =>
      simp only [List.eraseIdx, List.map_cons, List.nodup_cons]
      exact ⟨fun hm => h.1 (mem_map_of_mem_map_eraseIdx f xs j _ hm), ih j h.2⟩

/-- The component types of an entity are pairwise distinct. -/
def typesNodup (e : Entity) : Prop := (e.components.map Component.type).Nodup

/-- `_addComponent` preserves distinctness of component types: it refuses
exactly the components whose type is already present. -/
theorem typesNodup_addComponent (e : Entity) (c : Component)
    (h : typesNodup e) : typesNodup (e._addComponent c).1 := by
  unfold Entity._addComponent
  cases hc : e.hasComponent c.getType with
  | true => simpa [hc] using h
  | false =>
    simp only [hc, Bool.false_eq_true, if_false]
    unfold typesNodup at h ⊢
    simp only [List.map_append, List.map_cons, List.map_nil]
    rw [List.nodup_append]
    refine ⟨h, List.nodup_singleton _, ?_⟩
    simp only [List.disjoint_singleton]
    intro hm
    obtain ⟨c2, hc2, hty⟩ := List.mem_map.mp hm
    unfold Entity.hasComponent at hc
    have : e.components.any (fun x => x.type == c.getType) = true :=
      List.any_eq_true.mpr ⟨c2, hc2, by simp [Component.getType, hty]⟩
    rw [hc] at this
    exact Bool.false_ne_true this

/-- `_removeComponent` preserves distinctness of component types. -/
theorem typesNodup_removeComponent (e : Entity) (t : String)
    (h : typesNodup e) : typesNodup (e._removeComponent t).1 := by
  unfold Entity._removeComponent
  cases hidx : e.components.findIdx? (fun c => c.type == t) with
  | none => exact h
  | some i => exact nodup_map_eraseIdx Component.type e.components i h

/-- The constructor component loop preserves distinctness of component
types. -/
theorem typesNodup_addAll (cfgs : List CompConfig) (e : Entity) (s : Store)
    (h : typesNodup e) : typesNodup (addAll cfgs e s).1 := by
  induction cfgs generalizing e s with
  | nil => exact h
  | cons cfg rest ih =>
    unfold addAll
    exact ih _ _ (typesNodup_addComponent e (Component.ofConfig cfg s).1 h)

/-- Every entity reachable through the public lifecycle has pairwise
distinct component types. -/
theorem reachable_typesNodup (e : Entity) (h : Reachable e) : typesNodup e := by
  induction h with
  | fresh uuid => exact List.nodup_nil
  | ofConfig freshUUID cfg s s2 e2 heq =>
    unfold Entity.ofConfig at heq
    cases hc : cfg.components with
    | none => rw [hc] at heq; exact Option.noConfusion heq
    | some cfgs =>
      rw [hc] at heq
      simp only [Option.some.injEq, Prod.mk.injEq] at heq
      obtain ⟨he, _⟩ := heq
      subst he
      exact typesNodup_addAll cfgs _ s List.nodup_nil
  | add e2 c _ ih => exact typesNodup_addComponent e2 c ih
  | remove e2 t _ ih => exact typesNodup_removeComponent e2 t ih

/-- Distinct component types bound the per-type filter at one element. -/
theorem filter_type_length_le_one (l : List Component) (t : String)
    (h : (l.map Component.type).Nodup) :
    (l.filter (fun c => c.type == t)).length ≤ 1 := by
  induction l with
  | nil => simp
  | cons c rest ih =>
    simp only [List.map_cons, List.nodup_cons] at h
    rw [List.filter_cons]
    cases hc : (c.type == t) with
    | false => simpa [hc] using ih h.2
    | true =>
      simp only [hc, if_true, List.length_cons, Nat.add_le_add_iff_right]
      have hnil : rest.filter (fun x => x.type == t) = [] := by
        rw [List.filter_eq_nil_iff]
        intro x hx hp
        have hxt : x.type = t := by simpa using hp
        have hct : c.type = t := by simpa using hc
        exact h.1 (List.mem_map.mpr ⟨x, hx, by rw [hxt, hct]⟩)
      simp [hnil]

/-- Claim C4: for every entity reachable by construction (fresh or from a
configuration record) followed by any sequence of `_addComponent` and
`_removeComponent` operations, the component sequence holds at most one
component of any given type. -/
theorem C4_component_type_uniqueness (e : Entity) (h : Reachable e)
    (t : String) : (e.components.filter (fun c => c.type == t)).length ≤ 1 :=
  filter_type_length_le_one e.components t (reachable_typesNodup e h)

/-- Claim C4 witness: uniqueness at the concrete entity obtained by adding
one pos component to a fresh entity. -/
theorem C4_component_type_uniqueness_witness :
    (sampleEntity.components.filter (fun c => c.type == "pos")).length ≤ 1 :=
  C4_component_type_uniqueness sampleEntity
    (Reachable.add (Entity.fresh "u") posComponent (Reachable.fresh "u")) "pos"

/-- Appending a cell leaves reads of live references unchanged. -/
theorem read_append_lt (s : Store) (d : Data) (r : Nat)
    (h : r < s.cells.length) : Store.read ⟨s.cells ++ [d]⟩ r = s.read r := by
  simp [Store.read, List.getD, List.getElem?_append_left h]

/-- Reading the cell just appended yields it. -/
theorem read_append_len (s : Store) (d : Data) :
    Store.read ⟨s.cells ++ [d]⟩ s.cells.length = d := by
  simp [Store.read, List.getD]

/-- Writing one cell leaves reads of every other reference unchanged. -/
theorem read_write_ne (s : Store) (r r2 : Nat) (d : Data) (h : r ≠ r2) :
    (s.write r d).read r2 = s.read r2 := by
  simp [Store.read, Store.write, List.getD, List.getElem?_set_ne h]

/-- Unfolding equation of the clone loop for an empty list. -/
theorem cloneAll_nil (s : Store) : cloneAll [] s = ([], s) := rfl

/-- Unfolding equation of the clone loop for a nonempty list. -/
theorem cloneAll_cons (c : Component) (rest : List Component) (s : Store) :
    cloneAll (c :: rest) s
      = ((c.clone s).1 :: (cloneAll rest (c.clone s).2).1,
         (cloneAll rest (c.clone s).2).2) := rfl

/-- The clone loop allocates exactly one cell per cloned component. -/
theorem cloneAll_cells_length (cs : List Component) (s : Store) :
    ((cloneAll cs s).2).cells.length = s.cells.length + cs.length := by
  induction cs generalizing s with
  | nil => rfl
  | cons c rest ih =>
    rw [cloneAll_cons]
    show ((cloneAll rest (c.clone s).2).2).cells.length = _
    rw [ih (c.clone s).2]
    show ((s.cells ++ [s.read c.dataRef]).length) + rest.length = _
    simp
    omega

/-- The clone loop only allocates; reads of live references are
unchanged. -/
theorem cloneAll_reads_preserved (cs : List Component) (s : Store) (r : Nat)
    (h : r < s.cells.length) : ((cloneAll cs s).2).read r = s.read r := by
  induction cs generalizing s with
  | nil => rfl
  | cons c rest ih =>
    rw [cloneAll_cons]
    show ((cloneAll rest (c.clone s).2).2).read r = _
    rw [ih (c.clone s).2 (by show r < (s.cells ++ _).length; simp; omega)]
    exact read_append_lt s _ r h

/-- Every component produced by the clone loop references a freshly
allocated cell: at or above the old store top and below the new one. -/
theorem cloneAll_refs_fresh (cs : List Component) (s : Store) :
    ∀ c2 ∈ (cloneAll cs s).1, s.cells.length ≤ c2.dataRef ∧
      c2.dataRef < ((cloneAll cs s).2).cells.length := by
  induction cs generalizing s with
  | nil => intro c2 h; rw [cloneAll_nil] at h; exact absurd h (List.not_mem_nil c2)
  | cons c rest ih =>
    intro c2 h
    rw [cloneAll_cons] at h ⊢
    rcases List.mem_cons.mp h with rfl | h2
    · refine ⟨le_refl _, ?_⟩
      show (⟨c.type, s.cells.length⟩ : Component).dataRef
        < ((cloneAll rest (c.clone s).2).2).cells.length
      rw [cloneAll_cells_length]
      show s.cells.length < (s.cells ++ [s.read c.dataRef]).length + rest.length
      simp
      omega
    · have h3 := ih (c.clone s).2 c2 h2
      refine ⟨le_trans ?_ h3.1, h3.2⟩
      show s.cells.length ≤ (s.cells ++ _).length
      simp

/-- Pointwise strengthening of Forall2 that may use membership in the
second list. -/
theorem forall2_imp_mem {α β : Type} {R S : α → β → Prop} :
    ∀ {l1 : List α} {l2 : List β}, List.Forall₂ R l1 l2 →
    (∀ a b, b ∈ l2 → R a b → S a b) → List.Forall₂ S l1 l2 := by
  intro l1 l2 h
  induction h with
  | nil => intro _; exact List.Forall₂.nil
  | cons hab htl ih =>
    intro himp
    exact List.Forall₂.cons (himp _ _ (List.mem_cons_self _ _) hab)
      (ih fun a b hb hr => himp a b (List.mem_cons_of_mem _ hb) hr)

/-- The clone loop preserves the type list. -/
theorem cloneAll_types (cs : List Component) (s : Store) :
    ((cloneAll cs s).1).map Component.type = cs.map Component.type := by
  induction cs generalizing s with
  | nil => rfl
  | cons c rest ih =>
    rw [cloneAll_cons]
    show Component.type (c.clone s).1 :: ((cloneAll rest (c.clone s).2).1).map
      Component.type = _
    rw [ih (c.clone s).2]
    rfl

/-- Each clone matches its source component in type, and its payload in
the final store equals the source payload in the original store. -/
theorem cloneAll_clones (cs : List Component) (s : Store)
    (hwf : ∀ c ∈ cs, c.dataRef < s.cells.length) :
    List.Forall₂ (fun c2 c => c2.type = c.type ∧
      ((cloneAll cs s).2).read c2.dataRef = s.read c.dataRef)
      (cloneAll cs s).1 cs := by
  induction cs generalizing s with
  | nil => exact List.Forall₂.nil
  | cons c rest ih =>
    rw [cloneAll_cons]
    refine List.Forall₂.cons ⟨rfl, ?_⟩ ?_
    · show ((cloneAll rest (c.clone s).2).2).read s.cells.length
        = s.read c.dataRef
      rw [cloneAll_reads_preserved rest (c.clone s).2 s.cells.length
        (by show s.cells.length < (s.cells ++ _).length; simp)]
      exact read_append_len s _
    · have hwf1 : ∀ c3 ∈ rest, c3.dataRef < ((c.clone s).2).cells.length := by
        intro c3 h3
        show c3.dataRef < (s.cells ++ _).length
        have := hwf c3 (List.mem_cons_of_mem _ h3)
        simp
        omega
      have htail := ih (c.clone s).2 hwf1
      refine forall2_imp_mem htail ?_
      intro a b hb hab
      refine ⟨hab.1, ?_⟩
      rw [hab.2]
      exact read_append_lt s _ b.dataRef (hwf b (List.mem_cons_of_mem _ hb))

/-- Claim C5: copying an assembly into an entity overwrites type and name
from the source, sets the dirty flag, and replaces the component sequence
with, exactly and in order, one clone of each source component — an equal
type and an equal payload in the resulting store — discarding all previous
components. -/
theorem C5_copy_replaces (self source : Entity) (s : Store)
    (hwf : Entity.wf source s) :
    ((Entity.copy self source s).1).getType = source.getType ∧
    ((Entity.copy self source s).1).getName = source.getName ∧
    ((Entity.copy self source s).1).isDirty = true ∧
    ((Entity.copy self source s).1).getComponentList
      = source.getComponentList ∧
    List.Forall₂ (fun c2 c => c2.type = c.type ∧
      ((Entity.copy self source s).2).read c2.dataRef = s.read c.dataRef)
      ((Entity.copy self source s).1).components source.components := by
  refine ⟨rfl, rfl, rfl, ?_, ?_⟩
  · show ((cloneAll source.components s).1).map Component.getType
      = source.components.map Component.getType
    have h := cloneAll_types source.components s
    simpa [Component.getType] using h
  · exact cloneAll_clones source.components s hwf

/-- Claim C5 witness: copying the concrete one-component entity into a
fresh entity. -/
theorem C5_copy_replaces_witness :
    ((Entity.copy (Entity.fresh "v") sampleEntity sampleStore).1).getType
      = sampleEntity.getType ∧
    ((Entity.copy (Entity.fresh "v") sampleEntity sampleStore).1).getName
      = sampleEntity.getName ∧
    ((Entity.copy (Entity.fresh "v") sampleEntity sampleStore).1).isDirty
      = true ∧
    ((Entity.copy (Entity.fresh "v") sampleEntity
      sampleStore).1).getComponentList = sampleEntity.getComponentList ∧
    List.Forall₂ (fun c2 c => c2.type = c.type ∧
      ((Entity.copy (Entity.fresh "v") sampleEntity
        sampleStore).2).read c2.dataRef = sampleStore.read c.dataRef)
      ((Entity.copy (Entity.fresh "v") sampleEntity
        sampleStore).1).components sampleEntity.components :=
  C5_copy_replaces (Entity.fresh "v") sampleEntity sampleStore (by unfold Entity.wf; decide)

/-- Claim C6: copying an entity (the operation clone() performs on a fresh
instance) yields an entity sharing no component state with the source:
running setComponentData on the copy leaves the payload of every source
component exactly as it was in the original store, and running it on the
source leaves the payload of every copied component unchanged. -/
theorem C6_copy_independence (x e : Entity) (s : Store)
    (hwf : Entity.wf e s) (t : String) (d : Data) :
    (∀ c ∈ e.components,
      ((((Entity.copy x e s).1).setComponentData t d
        (Entity.copy x e s).2).2.1).read c.dataRef = s.read c.dataRef) ∧
    (∀ c2 ∈ ((Entity.copy x e s).1).components,
      ((e.setComponentData t d (Entity.copy x e s).2).2.1).read c2.dataRef
        = ((Entity.copy x e s).2).read c2.dataRef) := by
  constructor
  · intro c hc
    have hlt : c.dataRef < s.cells.length := hwf c hc
    unfold Entity.setComponentData
    cases hfind : ((Entity.copy x e s).1).getComponent t with
    | none =>
      show ((Entity.copy x e s).2).read c.dataRef = s.read c.dataRef
      exact cloneAll_reads_preserved e.components s c.dataRef hlt
    | some c2 =>
      have hmem : c2 ∈ ((Entity.copy x e s).1).components :=
        List.mem_of_find?_eq_some hfind
      have hfresh : s.cells.length ≤ c2.dataRef :=
        (cloneAll_refs_fresh e.components s c2 hmem).1
      show (Component.apply c2 d (Entity.copy x e s).2).read c.dataRef
        = s.read c.dataRef
      unfold Component.apply
      rw [read_write_ne _ _ _ _ (by omega)]
      exact cloneAll_reads_preserved e.components s c.dataRef hlt
  · intro c2 hc2
    have hfresh : s.cells.length ≤ c2.dataRef :=
      (cloneAll_refs_fresh e.components s c2 hc2).1
    unfold Entity.setComponentData
    cases hfind : e.getComponent t with
    | none => rfl
    | some c =>
      have hmem : c ∈ e.components := List.mem_of_find?_eq_some hfind
      have hlt : c.dataRef < s.cells.length := hwf c hmem
      show (Component.apply c d (Entity.copy x e s).2).read c2.dataRef
        = ((Entity.copy x e s).2).read c2.dataRef
      unfold Component.apply
      exact read_write_ne _ _ _ _ (by omega)

/-- Claim C6 witness: the concrete one-component entity, its copy, and a
setComponentData mutation of the pos payload on either side. -/
theorem C6_copy_independence_witness :
    ((((Entity.copy (Entity.fresh "v") sampleEntity sampleStore).1
      ).setComponentData "pos" [("x", 5)]
        (Entity.copy (Entity.fresh "v") sampleEntity
          sampleStore).2).2.1).read posComponent.dataRef
      = sampleStore.read posComponent.dataRef ∧
    ((sampleEntity.setComponentData "pos" [("x", 5)]
        (Entity.copy (Entity.fresh "v") sampleEntity
          sampleStore).2).2.1).read (1 : Nat)
      = ((Entity.copy (Entity.fresh "v") sampleEntity
          sampleStore).2).read (1 : Nat) := by
  have h := C6_copy_independence (Entity.fresh "v") sampleEntity sampleStore
    (by unfold Entity.wf; decide) "pos" [("x", 5)]
  refine ⟨h.1 posComponent (by decide), ?_⟩
  have h2 := h.2 ⟨"pos", 1⟩ (by decide)
  exact h2

end Aurora
